import Mathlib

/-! process.h : a verification development

A shallow embedding of `process_create`, `process_join` and `process_destroy`
(src/process.h).  Calls into the operating system and the C runtime are
modelled by an environment that fixes the answer of every call site, and by a
trace of the calls made, in program order.

Conventions of the embedding:

* a `HANDLE`, a `FILE *` and a byte are natural numbers; `0` is `NULL` / NUL;
* a C string is the list of bytes found at the pointer: the first `0` byte,
  or the end of the list, is its terminator;
* the `NULL`-terminated array `commandLine` is the list of its strings, the
  end of the list being the `NULL` entry;
* `size_t` is `w` bits wide (`w = 64` under `_M_AMD64`, `w = 32` under
  `_M_IX86`): every `len++` is taken modulo `2 ^ w`;
* `int i, j` may not go past `INT_MAX`: a run that would increment past it has
  no defined behaviour, and the loop functions return `none`.
-/

set_option autoImplicit false

namespace Process

/-! ## Data model -/

abbrev HANDLE := Nat
abbrev FILEp := Nat

/-- The record `struct process_s`. -/
structure process_s where
  stdin_file : FILEp
  stdout_file : FILEp
  stderr_file : FILEp
  hProcess : HANDLE
  deriving DecidableEq, Repr

/-- Largest value of the `int` counters `i` and `j`. -/
def INT_MAX : Nat := 2147483647

/-- The byte `' '`. -/
def SPACE : Nat := 32

/-! ## The two passes over `commandLine` (lines 203-233) -/

/-- First pass, inner loop:
`for (j = 0; '\0' != commandLine[i][j]; j++) { len++; }`. -/
def countChars (w : Nat) : List Nat → Nat → Nat → Option Nat
  | [], _, len => some len
  | c :: cs, j, len =>
    if c = 0 then some len
    else if j < INT_MAX then countChars w cs (j + 1) ((len + 1) % 2 ^ w)
    else none

/-- First pass, outer loop:
`for (i = 0; commandLine[i]; i++) { len++; <inner loop> }`. -/
def countLength (w : Nat) : List (List Nat) → Nat → Nat → Option Nat
  | [], _, len => some len
  | s :: rest, i, len =>
    match countChars w s 0 ((len + 1) % 2 ^ w) with
    | none => none
    | some len1 =>
      if i < INT_MAX then countLength w rest (i + 1) len1 else none

/-- Second pass, inner loop:
`for (j = 0; '\0' != commandLine[i][j]; j++) { commandLineCombined[len++] = commandLine[i][j]; }`.
Returns the new value of `len` and the writes `(index, byte)` in program
order. -/
def copyChars (w : Nat) : List Nat → Nat → Nat → Option (Nat × List (Nat × Nat))
  | [], _, len => some (len, [])
  | c :: cs, j, len =>
    if c = 0 then some (len, [])
    else if j < INT_MAX then
      match copyChars w cs (j + 1) ((len + 1) % 2 ^ w) with
      | none => none
      | some (len1, log) => some (len1, (len, c) :: log)
    else none

/-- Second pass, outer loop:
`for (i = 0; commandLine[i]; i++) { if (0 != i) { commandLineCombined[len++] = ' '; } <inner loop> }`. -/
def copyArgs (w : Nat) : List (List Nat) → Nat → Nat → Option (Nat × List (Nat × Nat))
  | [], _, len => some (len, [])
  | s :: rest, i, len =>
    let sep : List (Nat × Nat) := if i ≠ 0 then [(len, SPACE)] else []
    let len0 : Nat := if i ≠ 0 then (len + 1) % 2 ^ w else len
    match copyChars w s 0 len0 with
    | none => none
    | some (len1, log1) =>
      if i < INT_MAX then
        match copyArgs w rest (i + 1) len1 with
        | none => none
        | some (len2, log2) => some (len2, sep ++ log1 ++ log2)
      else none

/-- The whole second pass (lines 221-233): `len = 0`, the two loops, then
`commandLineCombined[len] = '\0'`.  The result is the list of writes. -/
def commandLineWrites (w : Nat) (commandLine : List (List Nat)) : Option (List (Nat × Nat)) :=
  match copyArgs w commandLine 0 0 with
  | none => none
  | some (len, log) => some (log ++ [(len, 0)])

/-- One store `buf[idx] = v` into a block of `buf.length` bytes; `none` when
the index is outside the block. -/
def storeByte (buf : List Nat) (idx v : Nat) : Option (List Nat) :=
  if idx < buf.length then some (buf.set idx v) else none

/-- The stores of a write log, in order. -/
def applyWrites : List (Nat × Nat) → List Nat → Option (List Nat)
  | [], buf => some buf
  | (idx, v) :: log, buf =>
    match storeByte buf idx v with
    | none => none
    | some buf1 => applyWrites log buf1

/-- The block returned by `_malloca(len)`: `len` bytes of indeterminate
content, `heap k` being the byte found at offset `k`. -/
def freshBlock (heap : Nat → Nat) (len : Nat) : List Nat :=
  (List.range len).map heap

/-- Lines 203-233 on a successful allocation: the content of
`commandLineCombined` when `CreateProcess` is called. -/
def combineCommandLine (w : Nat) (heap : Nat → Nat) (commandLine : List (List Nat)) :
    Option (List Nat) :=
  match countLength w commandLine 0 0 with
  | none => none
  | some len =>
    match commandLineWrites w commandLine with
    | none => none
    | some log => applyWrites log (freshBlock heap len)

/-! ## What the claims compare the code with -/

/-- The content of a C string: the bytes before its terminator. -/
def cstr (s : List Nat) : List Nat := s.takeWhile (fun c => c ≠ 0)

/-- The length `strlen` finds. -/
def strlen (s : List Nat) : Nat := (cstr s).length

/-- The strings joined with one space between consecutive ones. -/
def spaceJoined (commandLine : List (List Nat)) : List Nat :=
  List.intercalate [SPACE] (commandLine.map cstr)

/-- The sum over the elements of length + 1. -/
def joinedSize (commandLine : List (List Nat)) : Nat :=
  (commandLine.map (fun s => strlen s + 1)).sum

/-- The bytes `l` stored at the consecutive indices `k`, `k + 1`, ... -/
def indexed : Nat → List Nat → List (Nat × Nat)
  | _, [] => []
  | k, c :: cs => (k, c) :: indexed (k + 1) cs

/-- The bytes the second pass emits for the strings `commandLine[i]`,
`commandLine[i + 1]`, ...: a space before every string but the one of index
`0`. -/
def joinFrom : Nat → List (List Nat) → List Nat
  | _, [] => []
  | i, s :: rest => (if i ≠ 0 then [SPACE] else []) ++ cstr s ++ joinFrom (i + 1) rest

/-! ## Calls into the operating system and the C runtime -/

/-- The fields of `struct process_s` a store can go to. -/
inductive Field where
  | stdin_file
  | stdout_file
  | stderr_file
  | hProcess
  deriving DecidableEq, Repr

/-- The mode string of `_fdopen`: `"wb"` or `"rb"`. -/
inductive Mode where
  | wb
  | rb
  deriving DecidableEq, Repr

/-- The fields of `STARTUPINFO` the code sets; the rest is zeroed by
`memset`. -/
structure STARTUPINFO where
  dwFlags : Nat
  hStdInput : HANDLE
  hStdOutput : HANDLE
  hStdError : HANDLE
  deriving DecidableEq, Repr

/-- One effect of the program: a call into the OS or the C runtime with its
arguments and its answer, or a store into `*out_process`. -/
inductive Event where
  /-- Call `CreatePipe(&rd, &wr, &saAttr, 0)` with `saAttr.bInheritHandle = 1`;
  `some (rd, wr)` when it succeeds. -/
  | CreatePipe (bInheritHandle : Nat) (result : Option (HANDLE × HANDLE))
  /-- Call `SetHandleInformation(h, mask, flags)` and whether it succeeded. -/
  | SetHandleInformation (h : HANDLE) (mask flags : Nat) (ok : Bool)
  /-- Call `_open_osfhandle((intptr_t)h, flags)` and the descriptor returned. -/
  | open_osfhandle (h : HANDLE) (flags : Nat) (fd : Int)
  /-- Call `_fdopen(fd, mode)` and the stream returned. -/
  | fdopen (fd : Int) (mode : Mode) (file : FILEp)
  /-- A store `out_process->field = value`. -/
  | store (field : Field) (value : Nat)
  /-- Call `_malloca(size)` and whether the result is non-null. -/
  | malloca (size : Nat) (ok : Bool)
  /-- Call `CreateProcess(NULL, commandLine, NULL, NULL, inheritHandles, 0, NULL,
  NULL, &startInfo, &processInfo)`; `some (hProcess, hThread)` when it
  succeeds. -/
  | CreateProcess (commandLine : List Nat) (inheritHandles : Bool)
      (startInfo : STARTUPINFO) (result : Option (HANDLE × HANDLE))
  /-- Call `CloseHandle(h)`. -/
  | CloseHandle (h : HANDLE)
  /-- Call `fclose(f)`. -/
  | fclose (f : FILEp)
  /-- Call `WaitForSingleObject(h, milliseconds)` and the `DWORD` returned. -/
  | WaitForSingleObject (h : HANDLE) (milliseconds : Nat) (result : Nat)
  /-- Call `GetExitCodeProcess(h, out)`; `some code` when it succeeds and stores
  `code`. -/
  | GetExitCodeProcess (h : HANDLE) (result : Option Nat)
  deriving DecidableEq, Repr

/-- The answers of the environment to the calls of one run of
`process_create`, one per call site. -/
structure CreateEnv where
  /-- Answer of `CreatePipe` for the standard input pipe: `some (rd, wr)` or failure. -/
  pipe1 : Option (HANDLE × HANDLE)
  /-- Answer of `CreatePipe` for the standard output pipe. -/
  pipe2 : Option (HANDLE × HANDLE)
  /-- Answer of `CreatePipe` for the standard error pipe. -/
  pipe3 : Option (HANDLE × HANDLE)
  /-- Answer of `SetHandleInformation`, first to third call. -/
  shi1 : Bool
  shi2 : Bool
  shi3 : Bool
  /-- Answer of `_open_osfhandle`, first to third call: a descriptor, or `-1`. -/
  osf1 : Int
  osf2 : Int
  osf3 : Int
  /-- Answer of `_fdopen`, first to third call: a stream, or `0` (`NULL`). -/
  fdopen1 : FILEp
  fdopen2 : FILEp
  fdopen3 : FILEp
  /-- Whether `_malloca` returns a block. -/
  mallocaOk : Bool
  /-- The indeterminate content of the block `_malloca` returns. -/
  heap : Nat → Nat
  /-- Answer of `CreateProcess`: `some (hProcess, hThread)` or failure. -/
  createProcess : Option (HANDLE × HANDLE)

/-- How a run of a function ends: with a return value, or without defined
behaviour (a store outside the allocated block, an `int` counter past
`INT_MAX`). -/
inductive Outcome where
  | returned (code : Int)
  | undefined
  deriving DecidableEq, Repr

/-- A run of `process_create`: how it ends, the final content of
`*out_process`, and the effects in program order. -/
structure CreateRun where
  result : Outcome
  out : process_s
  trace : List Event
  deriving DecidableEq, Repr

/-- The effects `evs` followed by the run `r`. -/
def CreateRun.after (evs : List Event) (r : CreateRun) : CreateRun :=
  { r with trace := evs ++ r.trace }

def startFUseStdHandles : Nat := 0x00000100
def handleFlagInherit : Nat := 0x00000001

/-! ## `process_create` (lines 127-255) -/

/-- Lines 203-254: the command line is combined and the child is launched. -/
def create_launch (w : Nat) (env : CreateEnv) (commandLine : List (List Nat))
    (startInfo : STARTUPINFO) (out_process : process_s) : CreateRun :=
  match countLength w commandLine 0 0 with
  | none => ⟨Outcome.undefined, out_process, []⟩
  | some len =>
    -- commandLineCombined = (char *)_malloca(len);
    if env.mallocaOk = false then
      ⟨Outcome.returned (-1), out_process, [Event.malloca len false]⟩
    else
      match commandLineWrites w commandLine with
      | none => ⟨Outcome.undefined, out_process, [Event.malloca len true]⟩
      | some log =>
        match applyWrites log (freshBlock env.heap len) with
        | none => ⟨Outcome.undefined, out_process, [Event.malloca len true]⟩
        | some commandLineCombined =>
          match env.createProcess with
          | none =>
            ⟨Outcome.returned (-1), out_process,
              [Event.malloca len true,
               Event.CreateProcess commandLineCombined true startInfo none]⟩
          | some (hProcess, hThread) =>
            ⟨Outcome.returned 0, { out_process with hProcess := hProcess },
              [Event.malloca len true,
               Event.CreateProcess commandLineCombined true startInfo (some (hProcess, hThread)),
               Event.store Field.hProcess hProcess,
               Event.CloseHandle hThread]⟩

/-- Lines 183-201: the standard error pipe, then the launch. -/
def create_stderr (w : Nat) (env : CreateEnv) (commandLine : List (List Nat))
    (startInfo : STARTUPINFO) (out_process : process_s) : CreateRun :=
  match env.pipe3 with
  | none => ⟨Outcome.returned (-1), out_process, [Event.CreatePipe 1 none]⟩
  | some (rd, wr) =>
    if env.shi3 = false then
      ⟨Outcome.returned (-1), out_process,
        [Event.CreatePipe 1 (some (rd, wr)),
         Event.SetHandleInformation rd handleFlagInherit 0 false]⟩
    else
      let fd := env.osf3
      let evs := [Event.CreatePipe 1 (some (rd, wr)),
                  Event.SetHandleInformation rd handleFlagInherit 0 true,
                  Event.open_osfhandle rd 0 fd]
      if fd ≠ -1 then
        let file := env.fdopen3
        let out1 := { out_process with stderr_file := file }
        let evs1 := evs ++ [Event.fdopen fd Mode.rb file, Event.store Field.stderr_file file]
        if file = 0 then ⟨Outcome.returned (-1), out1, evs1⟩
        else (create_launch w env commandLine { startInfo with hStdError := wr } out1).after evs1
      else
        (create_launch w env commandLine { startInfo with hStdError := wr } out_process).after evs

/-- Lines 163-181: the standard output pipe, then the rest. -/
def create_stdout (w : Nat) (env : CreateEnv) (commandLine : List (List Nat))
    (startInfo : STARTUPINFO) (out_process : process_s) : CreateRun :=
  match env.pipe2 with
  | none => ⟨Outcome.returned (-1), out_process, [Event.CreatePipe 1 none]⟩
  | some (rd, wr) =>
    if env.shi2 = false then
      ⟨Outcome.returned (-1), out_process,
        [Event.CreatePipe 1 (some (rd, wr)),
         Event.SetHandleInformation rd handleFlagInherit 0 false]⟩
    else
      let fd := env.osf2
      let evs := [Event.CreatePipe 1 (some (rd, wr)),
                  Event.SetHandleInformation rd handleFlagInherit 0 true,
                  Event.open_osfhandle rd 0 fd]
      if fd ≠ -1 then
        let file := env.fdopen2
        let out1 := { out_process with stdout_file := file }
        let evs1 := evs ++ [Event.fdopen fd Mode.rb file, Event.store Field.stdout_file file]
        if file = 0 then ⟨Outcome.returned (-1), out1, evs1⟩
        else (create_stderr w env commandLine { startInfo with hStdOutput := wr } out1).after evs1
      else
        (create_stderr w env commandLine { startInfo with hStdOutput := wr } out_process).after evs

/-- The function `process_create`: lines 140-161 (the standard input pipe),
then the rest.  `out_process` is the content of `*out_process` on entry. -/
def process_create (w : Nat) (env : CreateEnv) (commandLine : List (List Nat))
    (out_process : process_s) : CreateRun :=
  -- memset(&startInfo, 0, sizeof(startInfo)); startInfo.dwFlags = startFUseStdHandles;
  let startInfo : STARTUPINFO := ⟨startFUseStdHandles, 0, 0, 0⟩
  match env.pipe1 with
  | none => ⟨Outcome.returned (-1), out_process, [Event.CreatePipe 1 none]⟩
  | some (rd, wr) =>
    if env.shi1 = false then
      ⟨Outcome.returned (-1), out_process,
        [Event.CreatePipe 1 (some (rd, wr)),
         Event.SetHandleInformation wr handleFlagInherit 0 false]⟩
    else
      let fd := env.osf1
      let evs := [Event.CreatePipe 1 (some (rd, wr)),
                  Event.SetHandleInformation wr handleFlagInherit 0 true,
                  Event.open_osfhandle wr 0 fd]
      if fd ≠ -1 then
        let file := env.fdopen1
        let out1 := { out_process with stdin_file := file }
        let evs1 := evs ++ [Event.fdopen fd Mode.wb file, Event.store Field.stdin_file file]
        if file = 0 then ⟨Outcome.returned (-1), out1, evs1⟩
        else (create_stdout w env commandLine { startInfo with hStdInput := rd } out1).after evs1
      else
        (create_stdout w env commandLine { startInfo with hStdInput := rd } out_process).after evs

/-! ## The accessors (lines 257-261) -/

def process_stdin (process : process_s) : FILEp := process.stdin_file
def process_stdout (process : process_s) : FILEp := process.stdout_file
def process_stderr (process : process_s) : FILEp := process.stderr_file

/-! ## `process_join` (lines 263-277) -/

/-- The answers of the environment to the calls of one run of
`process_join`. -/
structure JoinEnv where
  /-- The `DWORD` returned by `WaitForSingleObject`: `0` is `WAIT_OBJECT_0`,
  `0xFFFFFFFF` is `WAIT_FAILED`. -/
  waitResult : Nat
  /-- Answer of `GetExitCodeProcess`: `some code` when it succeeds, storing the `DWORD`
  `code`; `none` when it fails. -/
  exitCode : Option Nat

def WAIT_OBJECT_0 : Nat := 0
def WAIT_FAILED : Nat := 0xFFFFFFFF

/-- The value of the `DWORD` `code` read back through the `int *` it was
stored through (`(LPDWORD)out_return_code`). -/
def dwordAsInt (code : Nat) : Int :=
  if code % 2 ^ 32 < 2 ^ 31 then ((code % 2 ^ 32 : Nat) : Int)
  else ((code % 2 ^ 32 : Nat) : Int) - 2 ^ 32

/-- A run of `process_join`: the value returned, the final content of the
exit-code slot (`none` when the pointer is `NULL`), and the effects in
program order. -/
structure JoinRun where
  ret : Int
  slot : Option Int
  trace : List Event
  deriving DecidableEq, Repr

/-- A run of `process_destroy`: the value returned and the effects in program
order. -/
structure DestroyRun where
  ret : Int
  trace : List Event
  deriving DecidableEq, Repr

def infinite : Nat := 0xFFFFFFFF

/-- The function `process_join`.  `out_return_code` is `none` for a `NULL`
pointer and `some v` for a pointer to an `int` holding `v`. -/
def process_join (env : JoinEnv) (process : process_s) (out_return_code : Option Int) :
    JoinRun :=
  let evs := [Event.fclose process.stdin_file,
              Event.WaitForSingleObject process.hProcess infinite env.waitResult]
  match out_return_code with
  | some old =>
    match env.exitCode with
    | none => ⟨-1, some old, evs ++ [Event.GetExitCodeProcess process.hProcess none]⟩
    | some code =>
      ⟨0, some (dwordAsInt code), evs ++ [Event.GetExitCodeProcess process.hProcess (some code)]⟩
  | none => ⟨0, none, evs⟩

/-! ## `process_destroy` (lines 279-287) -/

/-- The function `process_destroy`. -/
def process_destroy (process : process_s) : DestroyRun :=
  ⟨0,
    [Event.fclose process.stdin_file,
     Event.fclose process.stdout_file,
     Event.fclose process.stderr_file,
     Event.CloseHandle process.hProcess]⟩

/-- An environment in which every call of `process_create` succeeds, with
pairwise distinct handles, descriptors and streams. -/
def goodEnv : CreateEnv where
  pipe1 := some (11, 12)
  pipe2 := some (21, 22)
  pipe3 := some (31, 32)
  shi1 := true
  shi2 := true
  shi3 := true
  osf1 := 3
  osf2 := 4
  osf3 := 5
  fdopen1 := 1001
  fdopen2 := 1002
  fdopen3 := 1003
  mallocaOk := true
  heap := fun _ => 170
  createProcess := some (500, 501)

/-- The content of `*out_process` before a call: nothing set. -/
def blank : process_s := ⟨0, 0, 0, 0⟩

/-- The failed calls of the claim on aborts: a failed `CreatePipe`, a failed
`SetHandleInformation`, a failed `_malloca`, a failed `CreateProcess`. -/
def Event.isAbort : Event → Bool
  | Event.CreatePipe _ none => true
  | Event.SetHandleInformation _ _ _ false => true
  | Event.malloca _ false => true
  | Event.CreateProcess _ _ _ none => true
  | _ => false

/-- A call of `CreateProcess` that launched a child. -/
def Event.isLaunch : Event → Bool
  | Event.CreateProcess _ _ _ (some _) => true
  | _ => false

/-- A store into `out_process->hProcess`. -/
def Event.isStoreHProcess : Event → Bool
  | Event.store Field.hProcess _ => true
  | _ => false

/-- A run aborts cleanly: a failed call of the four kinds makes it return
`-1`, is the last effect of the run, and the run neither launches a child nor
stores into `hProcess`, which keeps the value `h` it had on entry. -/
def AbortsCleanly (h : HANDLE) (r : CreateRun) : Prop :=
  ∀ e ∈ r.trace, e.isAbort = true →
    r.result = Outcome.returned (-1) ∧ r.trace.getLast? = some e ∧ r.out.hProcess = h ∧
    ∀ e1 ∈ r.trace, e1.isLaunch = false ∧ e1.isStoreHProcess = false

/-- Every call of `CreateProcess` in the run is handed the block `buf`. -/
def LaunchesWith (buf : Option (List Nat)) (r : CreateRun) : Prop :=
  ∀ (b : List Nat) (inh : Bool) (si : STARTUPINFO) (res : Option (HANDLE × HANDLE)),
    Event.CreateProcess b inh si res ∈ r.trace → buf = some b

/-- Effects that are neither a failed call of the four kinds, nor a launch,
nor a store into `hProcess`. -/
def Quiet (evs : List Event) : Prop :=
  ∀ e ∈ evs, e.isAbort = false ∧ e.isLaunch = false ∧ e.isStoreHProcess = false

/-- Every call before `CreateProcess` succeeds: the three pipes are made,
the three inherit flags are changed, every descriptor that is opened gets its
stream, and the block is allocated. -/
def CreateEnv.reachesLaunch (env : CreateEnv) : Prop :=
  env.pipe1 ≠ none ∧ env.shi1 = true ∧ (env.osf1 ≠ -1 → env.fdopen1 ≠ 0) ∧
  env.pipe2 ≠ none ∧ env.shi2 = true ∧ (env.osf2 ≠ -1 → env.fdopen2 ≠ 0) ∧
  env.pipe3 ≠ none ∧ env.shi3 = true ∧ (env.osf3 ≠ -1 → env.fdopen3 ≠ 0) ∧
  env.mallocaOk = true

/-- The run calls `CreateProcess` on the block `buf`, with handle
inheritance on. -/
def CallsCreateProcess (buf : List Nat) (r : CreateRun) : Prop :=
  ∃ (si : STARTUPINFO) (res : Option (HANDLE × HANDLE)),
    Event.CreateProcess buf true si res ∈ r.trace

/-- A call that closes a stream or a handle. -/
def Event.isClose : Event → Bool
  | Event.fclose _ => true
  | Event.CloseHandle _ => true
  | _ => false

/-- A handle as `process_create` leaves it when every call succeeds in
`goodEnv`. -/
def sampleProcess : process_s := ⟨1001, 1002, 1003, 500⟩

/-- The effects of one pipe block of `process_create` when it goes on to the
next block: the pipe `(rd, wr)` is made, the inherit flag of the end `keep`
the parent retains is cleared, a descriptor is asked for on `keep`, and, when
one is returned, a stream is opened on it in mode `mode` and stored into
`field`. -/
def pipeEffects (rd wr keep : HANDLE) (fd : Int) (mode : Mode) (field : Field) (file : FILEp) :
    List Event :=
  [Event.CreatePipe 1 (some (rd, wr)),
   Event.SetHandleInformation keep handleFlagInherit 0 true,
   Event.open_osfhandle keep 0 fd] ++
  (if fd ≠ -1 then [Event.fdopen fd mode file, Event.store field file] else [])

/-- A command line of 65536 entries, each the string of 65535 bytes `a`: on a
32-bit target, 65536 pointers to one string of 64 KiB.  Its joined size is
`2 ^ 32`. -/
def wideCommandLine : List (List Nat) :=
  List.replicate 65536 (List.replicate 65535 97)

/-! ## Lemmas on the two passes -/

theorem cstr_cons_zero (cs : List Nat) : cstr (0 :: cs) = [] := by
  simp [cstr]

theorem cstr_cons_ne (c : Nat) (cs : List Nat) (h : c ≠ 0) : cstr (c :: cs) = c :: cstr cs := by
  simp [cstr, h]

/-- A string without a NUL byte is its own content. -/
theorem cstr_eq_self (s : List Nat) (h : ∀ c ∈ s, c ≠ 0) : cstr s = s := by
  induction s with
  | nil => rfl
  | cons c cs ih =>
    have hc : c ≠ 0 := h c (List.mem_cons_self c cs)
    rw [cstr_cons_ne c cs hc, ih (fun d hd => h d (List.mem_cons_of_mem c hd))]

theorem strlen_cons_ne (c : Nat) (cs : List Nat) (h : c ≠ 0) :
    strlen (c :: cs) = strlen cs + 1 := by
  simp [strlen, cstr_cons_ne c cs h]

theorem strlen_cons_zero (cs : List Nat) : strlen (0 :: cs) = 0 := by
  simp [strlen, cstr_cons_zero]

theorem countChars_eq (w : Nat) (s : List Nat) :
    ∀ (j len : Nat), j + strlen s ≤ INT_MAX → len + strlen s < 2 ^ w →
      countChars w s j len = some (len + strlen s) := by
  induction s with
  | nil => intro j len _ _; simp [countChars, strlen, cstr]
  | cons c cs ih =>
    intro j len hj hlen
    by_cases hc : c = 0
    · subst hc; simp [countChars, strlen_cons_zero]
    · rw [strlen_cons_ne c cs hc] at hj hlen
      have hjlt : j < INT_MAX := by omega
      have hmod : (len + 1) % 2 ^ w = len + 1 := Nat.mod_eq_of_lt (by omega)
      simp only [countChars, hc, if_false, hjlt, if_true, hmod]
      rw [ih (j + 1) (len + 1) (by omega) (by omega), strlen_cons_ne c cs hc]
      congr 1; omega

theorem joinedSize_cons (s : List Nat) (rest : List (List Nat)) :
    joinedSize (s :: rest) = strlen s + 1 + joinedSize rest := by
  simp [joinedSize]

theorem countLength_eq (w : Nat) (cl : List (List Nat)) :
    ∀ (i len : Nat), i + cl.length ≤ INT_MAX → (∀ s ∈ cl, strlen s ≤ INT_MAX) →
      len + joinedSize cl < 2 ^ w →
      countLength w cl i len = some (len + joinedSize cl) := by
  induction cl with
  | nil => intro i len _ _ _; simp [countLength, joinedSize]
  | cons s rest ih =>
    intro i len hi hs hlen
    rw [joinedSize_cons] at hlen
    have hsl : strlen s ≤ INT_MAX := hs s (List.mem_cons_self s rest)
    have hmod : (len + 1) % 2 ^ w = len + 1 := Nat.mod_eq_of_lt (by omega)
    have hilt : i < INT_MAX := by simp only [List.length_cons] at hi; omega
    have h1 := countChars_eq w s 0 (len + 1) (by omega) (by omega)
    simp only [countLength, hmod, h1, hilt, if_true]
    rw [ih (i + 1) (len + 1 + strlen s) (by simp only [List.length_cons] at hi; omega)
      (fun t ht => hs t (List.mem_cons_of_mem s ht)) (by omega), joinedSize_cons]
    congr 1; omega

theorem indexed_append (a b : List Nat) :
    ∀ k : Nat, indexed k (a ++ b) = indexed k a ++ indexed (k + a.length) b := by
  induction a with
  | nil => intro k; simp [indexed]
  | cons c cs ih =>
    intro k
    have harith : k + 1 + cs.length = k + (cs.length + 1) := by omega
    rw [List.cons_append]
    simp only [indexed, List.length_cons, List.cons_append]
    rw [ih (k + 1), harith]

theorem indexed_length (l : List Nat) : ∀ k : Nat, (indexed k l).length = l.length := by
  induction l with
  | nil => intro k; rfl
  | cons c cs ih => intro k; simp [indexed, ih (k + 1)]

theorem indexed_mem (l : List Nat) :
    ∀ (k : Nat) (p : Nat × Nat), p ∈ indexed k l → k ≤ p.1 ∧ p.1 < k + l.length := by
  induction l with
  | nil => intro k p hp; simp [indexed] at hp
  | cons c cs ih =>
    intro k p hp
    simp only [indexed, List.mem_cons] at hp
    rcases hp with rfl | hp
    · simp
    · have := ih (k + 1) p hp
      simp only [List.length_cons]; omega

theorem copyChars_eq (w : Nat) (s : List Nat) :
    ∀ (j len : Nat), j + strlen s ≤ INT_MAX → len + strlen s < 2 ^ w →
      copyChars w s j len = some (len + strlen s, indexed len (cstr s)) := by
  induction s with
  | nil => intro j len _ _; simp [copyChars, strlen, cstr, indexed]
  | cons c cs ih =>
    intro j len hj hlen
    by_cases hc : c = 0
    · subst hc; simp [copyChars, strlen_cons_zero, cstr_cons_zero, indexed]
    · rw [strlen_cons_ne c cs hc] at hj hlen
      have hjlt : j < INT_MAX := by omega
      have hmod : (len + 1) % 2 ^ w = len + 1 := Nat.mod_eq_of_lt (by omega)
      simp only [copyChars, hc, if_false, hjlt, if_true, hmod]
      have harith : len + 1 + strlen cs = len + (strlen cs + 1) := by omega
      rw [ih (j + 1) (len + 1) (by omega) (by omega), strlen_cons_ne c cs hc,
        cstr_cons_ne c cs hc, harith]
      simp only [indexed]

theorem joinFrom_succ_length (cl : List (List Nat)) :
    ∀ i : Nat, (joinFrom (i + 1) cl).length = joinedSize cl := by
  induction cl with
  | nil => intro i; rfl
  | cons s rest ih =>
    intro i
    simp only [joinFrom, joinedSize_cons, List.length_append, ih (i + 1), strlen]
    simp
    omega

theorem joinFrom_zero_length (s : List Nat) (rest : List (List Nat)) :
    (joinFrom 0 (s :: rest)).length + 1 = joinedSize (s :: rest) := by
  simp only [joinFrom, joinedSize_cons, List.length_append, joinFrom_succ_length rest 0, strlen]
  simp
  omega

theorem intercalate_cons_eq (rest : List (List Nat)) :
    ∀ (a : List Nat) (i : Nat),
      List.intercalate [SPACE] (a :: rest.map cstr) = a ++ joinFrom (i + 1) rest := by
  induction rest with
  | nil => intro a i; simp [List.intercalate, joinFrom]
  | cons b rest ih =>
    intro a i
    have h := ih (cstr b) (i + 1)
    simp only [List.intercalate, List.map_cons, List.intersperse_cons₂, List.flatten_cons] at h ⊢
    rw [h]
    simp [joinFrom]

/-- The bytes of the second pass are the space-joined strings. -/
theorem joinFrom_zero_eq (cl : List (List Nat)) : joinFrom 0 cl = spaceJoined cl := by
  cases cl with
  | nil => simp [joinFrom, spaceJoined, List.intercalate]
  | cons s rest =>
    simp only [spaceJoined, List.map_cons, intercalate_cons_eq rest (cstr s) 0, joinFrom]
    simp

theorem copyArgs_eq (w : Nat) (cl : List (List Nat)) :
    ∀ (i len : Nat), i + cl.length ≤ INT_MAX → (∀ s ∈ cl, strlen s ≤ INT_MAX) →
      len + (joinFrom i cl).length < 2 ^ w →
      copyArgs w cl i len =
        some (len + (joinFrom i cl).length, indexed len (joinFrom i cl)) := by
  induction cl with
  | nil => intro i len _ _ _; simp [copyArgs, joinFrom, indexed]
  | cons s rest ih =>
    intro i len hi hs hlen
    have hsl : strlen s ≤ INT_MAX := hs s (List.mem_cons_self s rest)
    have hilt : i < INT_MAX := by simp only [List.length_cons] at hi; omega
    have hrest : ∀ t ∈ rest, strlen t ≤ INT_MAX := fun t ht => hs t (List.mem_cons_of_mem s ht)
    have hi1 : i + 1 + rest.length ≤ INT_MAX := by simp only [List.length_cons] at hi; omega
    by_cases h0 : i = 0
    · subst h0
      simp only [joinFrom, List.length_append, ne_eq, not_true_eq_false, if_false,
        List.length_nil, List.nil_append, Nat.zero_add] at hlen
      have hc := copyChars_eq w s 0 len (by omega) (by unfold strlen; omega)
      have hr := ih 1 (len + strlen s) hi1 hrest (by unfold strlen; omega)
      simp only [copyArgs, ne_eq, not_true_eq_false, if_false, hc, hilt, if_true,
        Nat.zero_add, hr, joinFrom, List.nil_append, List.length_append, indexed_append]
      simp only [strlen, Nat.add_assoc]
    · simp only [joinFrom, List.length_append, ne_eq, h0, not_false_eq_true, if_true,
        List.length_singleton] at hlen
      have hmod : (len + 1) % 2 ^ w = len + 1 := Nat.mod_eq_of_lt (by omega)
      have hc := copyChars_eq w s 0 (len + 1) (by omega) (by unfold strlen; omega)
      have hr := ih (i + 1) (len + 1 + strlen s) hi1 hrest (by unfold strlen; omega)
      simp only [copyArgs, ne_eq, h0, not_false_eq_true, if_true, hmod, hc, hilt, hr, joinFrom,
        List.length_append, List.length_singleton, indexed_append, indexed, List.append_assoc,
        List.singleton_append, List.cons_append, List.nil_append]
      simp only [strlen, Nat.add_assoc, List.length_cons, List.length_append]
      have harith : ∀ a b : Nat, len + (1 + (a + b)) = len + (a + (b + 1)) := by
        intro a b; omega
      rw [harith]

theorem applyWrites_indexed (l : List Nat) :
    ∀ (k : Nat) (buf : List Nat), k + l.length ≤ buf.length →
      applyWrites (indexed k l) buf = some (buf.take k ++ l ++ buf.drop (k + l.length)) := by
  induction l with
  | nil => intro k buf _; simp [indexed, applyWrites]
  | cons c cs ih =>
    intro k buf h
    simp only [List.length_cons] at h
    have hk : k < buf.length := by omega
    simp only [indexed, applyWrites, storeByte, hk, if_true]
    rw [ih (k + 1) (buf.set k c) (by simp only [List.length_set]; omega)]
    have h1 : (buf.set k c).take (k + 1) = buf.take k ++ [c] := by
      rw [List.set_eq_take_append_cons_drop, if_pos hk]
      rw [List.take_append_eq_append_take]
      simp [List.length_take, Nat.min_eq_left (Nat.le_of_lt hk)]
    have h2 : (buf.set k c).drop (k + 1 + cs.length) = buf.drop (k + (cs.length + 1)) := by
      rw [List.drop_set_of_lt c buf (by omega)]
      congr 1; omega
    rw [h1, h2]
    simp

theorem freshBlock_length (heap : Nat → Nat) (len : Nat) : (freshBlock heap len).length = len := by
  simp [freshBlock]

theorem joinedSize_le (cl : List (List Nat)) (hs : ∀ s ∈ cl, strlen s ≤ INT_MAX) :
    joinedSize cl ≤ cl.length * (INT_MAX + 1) := by
  induction cl with
  | nil => simp [joinedSize]
  | cons s rest ih =>
    have h1 := hs s (List.mem_cons_self s rest)
    have h2 := ih (fun t ht => hs t (List.mem_cons_of_mem s ht))
    rw [joinedSize_cons, List.length_cons, Nat.succ_mul]
    omega

/-- With `int` counters in range, the size of the joined command line is below
`2 ^ 62`: a `size_t` of 62 bits or more never wraps. -/
theorem joinedSize_lt_of_int (w : Nat) (cl : List (List Nat)) (hw : 62 ≤ w)
    (hn : cl.length ≤ INT_MAX) (hs : ∀ s ∈ cl, strlen s ≤ INT_MAX) :
    joinedSize cl < 2 ^ w := by
  have h1 := joinedSize_le cl hs
  have h2 : cl.length * (INT_MAX + 1) ≤ INT_MAX * (INT_MAX + 1) :=
    Nat.mul_le_mul_right _ hn
  have h3 : INT_MAX * (INT_MAX + 1) < 2 ^ 62 := by decide
  have h4 : 2 ^ 62 ≤ 2 ^ w := Nat.pow_le_pow_right (by decide) hw
  omega

/-- The two passes on a non-empty command line whose joined size fits
`size_t`: the first pass finds `joinedSize`, the second pass writes the
space-joined strings and a NUL at the indices `0, 1, ...`, and the block
ends up holding exactly these bytes. -/
theorem combine_spec (w : Nat) (heap : Nat → Nat) (cl : List (List Nat)) (hne : cl ≠ [])
    (hn : cl.length ≤ INT_MAX) (hs : ∀ s ∈ cl, strlen s ≤ INT_MAX)
    (hfit : joinedSize cl < 2 ^ w) :
    countLength w cl 0 0 = some (joinedSize cl) ∧
    commandLineWrites w cl = some (indexed 0 (spaceJoined cl ++ [0])) ∧
    combineCommandLine w heap cl = some (spaceJoined cl ++ [0]) ∧
    (spaceJoined cl ++ [0]).length = joinedSize cl := by
  obtain ⟨s, rest, rfl⟩ := List.exists_cons_of_ne_nil hne
  have hlen := joinFrom_zero_length s rest
  have h1 := countLength_eq w (s :: rest) 0 0 (by omega) hs (by omega)
  have h2 := copyArgs_eq w (s :: rest) 0 0 (by omega) hs (by omega)
  rw [Nat.zero_add] at h1 h2
  have h3 : commandLineWrites w (s :: rest) = some (indexed 0 (spaceJoined (s :: rest) ++ [0])) := by
    simp only [commandLineWrites, h2, indexed_append, indexed, Nat.zero_add,
      joinFrom_zero_eq]
  have h4 : (spaceJoined (s :: rest) ++ [0]).length = joinedSize (s :: rest) := by
    rw [← joinFrom_zero_eq, List.length_append, List.length_singleton, hlen]
  refine ⟨h1, h3, ?_, h4⟩
  simp only [combineCommandLine, h1, h3]
  have hb := freshBlock_length heap (joinedSize (s :: rest))
  rw [applyWrites_indexed _ 0 _ (by omega)]
  have hd : List.drop (0 + (spaceJoined (s :: rest) ++ [0]).length)
      (freshBlock heap (joinedSize (s :: rest))) = [] :=
    List.drop_eq_nil_of_le (by omega)
  rw [hd, List.take_zero, List.nil_append, List.append_nil]

@[simp] theorem after_trace (evs : List Event) (r : CreateRun) :
    (r.after evs).trace = evs ++ r.trace := rfl

@[simp] theorem after_result (evs : List Event) (r : CreateRun) :
    (r.after evs).result = r.result := rfl

@[simp] theorem after_out (evs : List Event) (r : CreateRun) :
    (r.after evs).out = r.out := rfl

/-! ## The two passes when `size_t` wraps -/

theorem strlen_replicate (k c : Nat) (hc : c ≠ 0) : strlen (List.replicate k c) = k := by
  induction k with
  | zero => rfl
  | succ k ih => rw [List.replicate_succ, strlen_cons_ne c _ hc, ih]

theorem joinedSize_replicate (n : Nat) (s : List Nat) :
    joinedSize (List.replicate n s) = n * (strlen s + 1) := by
  induction n with
  | zero => simp [joinedSize]
  | succ n ih =>
    rw [List.replicate_succ, joinedSize_cons, ih, Nat.succ_mul]
    omega

/-- The first pass, inner loop, with wrapping: the length found is taken
modulo `2 ^ w`. -/
theorem countChars_mod (w : Nat) (s : List Nat) :
    ∀ (j len : Nat), len < 2 ^ w → j + strlen s ≤ INT_MAX →
      countChars w s j len = some ((len + strlen s) % 2 ^ w) := by
  induction s with
  | nil =>
    intro j len hlen _
    simp [countChars, strlen, cstr, Nat.mod_eq_of_lt hlen]
  | cons c cs ih =>
    intro j len hlen hj
    by_cases hc : c = 0
    · subst hc
      simp [countChars, strlen_cons_zero, Nat.mod_eq_of_lt hlen]
    · rw [strlen_cons_ne c cs hc] at hj
      have hjlt : j < INT_MAX := by omega
      have hpos : 0 < 2 ^ w := Nat.two_pow_pos w
      simp only [countChars, hc, if_false, hjlt, if_true]
      rw [ih (j + 1) ((len + 1) % 2 ^ w) (Nat.mod_lt _ hpos) (by omega),
        strlen_cons_ne c cs hc, Nat.mod_add_mod]
      congr 2
      omega

/-- The first pass with wrapping: the length found is the joined size modulo
`2 ^ w`. -/
theorem countLength_mod (w : Nat) (cl : List (List Nat)) :
    ∀ (i len : Nat), len < 2 ^ w → i + cl.length ≤ INT_MAX →
      (∀ s ∈ cl, strlen s ≤ INT_MAX) →
      countLength w cl i len = some ((len + joinedSize cl) % 2 ^ w) := by
  induction cl with
  | nil =>
    intro i len hlen _ _
    simp [countLength, joinedSize, Nat.mod_eq_of_lt hlen]
  | cons s rest ih =>
    intro i len hlen hi hs
    have hsl : strlen s ≤ INT_MAX := hs s (List.mem_cons_self s rest)
    have hilt : i < INT_MAX := by simp only [List.length_cons] at hi; omega
    have hpos : 0 < 2 ^ w := Nat.two_pow_pos w
    have h1 := countChars_mod w s 0 ((len + 1) % 2 ^ w) (Nat.mod_lt _ hpos) (by omega)
    rw [Nat.mod_add_mod] at h1
    simp only [countLength, h1, hilt, if_true]
    rw [ih (i + 1) ((len + 1 + strlen s) % 2 ^ w) (Nat.mod_lt _ hpos)
      (by simp only [List.length_cons] at hi; omega)
      (fun t ht => hs t (List.mem_cons_of_mem s ht)), Nat.mod_add_mod, joinedSize_cons]
    congr 2
    omega

/-- The second pass, inner loop, stores one byte per byte of the string,
whatever the value of `len`. -/
theorem copyChars_length (w : Nat) (s : List Nat) :
    ∀ (j len : Nat), j + strlen s ≤ INT_MAX →
      ∃ (len1 : Nat) (log : List (Nat × Nat)),
        copyChars w s j len = some (len1, log) ∧ log.length = strlen s := by
  induction s with
  | nil => intro j len _; exact ⟨len, [], rfl, rfl⟩
  | cons c cs ih =>
    intro j len hj
    by_cases hc : c = 0
    · subst hc
      exact ⟨len, [], by simp [copyChars], by simp [strlen_cons_zero]⟩
    · rw [strlen_cons_ne c cs hc] at hj
      have hjlt : j < INT_MAX := by omega
      obtain ⟨len1, log, h1, hl⟩ := ih (j + 1) ((len + 1) % 2 ^ w) (by omega)
      refine ⟨len1, (len, c) :: log, ?_, ?_⟩
      · simp only [copyChars, hc, if_false, hjlt, if_true, h1]
      · rw [List.length_cons, hl, strlen_cons_ne c cs hc]

/-- The second pass, outer loop, stores one byte per byte of the joined
strings, whatever the value of `len`. -/
theorem copyArgs_length (w : Nat) (cl : List (List Nat)) :
    ∀ (i len : Nat), i + cl.length ≤ INT_MAX → (∀ s ∈ cl, strlen s ≤ INT_MAX) →
      ∃ (len2 : Nat) (log : List (Nat × Nat)),
        copyArgs w cl i len = some (len2, log) ∧ log.length = (joinFrom i cl).length := by
  induction cl with
  | nil => intro i len _ _; exact ⟨len, [], rfl, rfl⟩
  | cons s rest ih =>
    intro i len hi hs
    have hsl : strlen s ≤ INT_MAX := hs s (List.mem_cons_self s rest)
    have hilt : i < INT_MAX := by simp only [List.length_cons] at hi; omega
    have hrest : ∀ t ∈ rest, strlen t ≤ INT_MAX := fun t ht => hs t (List.mem_cons_of_mem s ht)
    have hi1 : i + 1 + rest.length ≤ INT_MAX := by simp only [List.length_cons] at hi; omega
    obtain ⟨len1, log1, h1, hl1⟩ :=
      copyChars_length w s 0 (if i ≠ 0 then (len + 1) % 2 ^ w else len) (by omega)
    obtain ⟨len2, log2, h2, hl2⟩ := ih (i + 1) len1 hi1 hrest
    refine ⟨len2, (if i ≠ 0 then [(len, SPACE)] else []) ++ log1 ++ log2, ?_, ?_⟩
    · simp only [copyArgs, h1, hilt, if_true, h2]
    · simp only [joinFrom, List.length_append, hl1, hl2, strlen]
      by_cases h0 : i = 0 <;> simp [h0]

/-- A block of no bytes takes no store. -/
theorem applyWrites_empty_block (log : List (Nat × Nat)) (h : log ≠ []) :
    applyWrites log [] = none := by
  cases log with
  | nil => exact absurd rfl h
  | cons q rest =>
    obtain ⟨idx, v⟩ := q
    simp [applyWrites, storeByte]

/-- The second pass ends with the store of the terminator. -/
theorem commandLineWrites_of_copyArgs (w : Nat) (cl : List (List Nat)) (len : Nat)
    (log : List (Nat × Nat)) (h : copyArgs w cl 0 0 = some (len, log)) :
    commandLineWrites w cl = some (log ++ [(len, 0)]) := by
  simp only [commandLineWrites, h]

/-- When the first pass finds the length `0`, no store of the second pass
fits the block: lines 203-233 have no defined result. -/
theorem combineCommandLine_zero_block (w : Nat) (heap : Nat → Nat) (cl : List (List Nat))
    (log : List (Nat × Nat)) (h1 : countLength w cl 0 0 = some 0)
    (h2 : commandLineWrites w cl = some log) (hne : log ≠ []) :
    combineCommandLine w heap cl = none := by
  have hblock : freshBlock heap 0 = [] := rfl
  simp only [combineCommandLine, h1, h2, hblock, applyWrites_empty_block log hne]

/-- When the first pass finds the length `0` and `_malloca(0)` returns a
block, the run ends without defined behaviour right after the allocation. -/
theorem create_launch_zero_block (w : Nat) (env : CreateEnv) (cl : List (List Nat))
    (si : STARTUPINFO) (p : process_s) (log : List (Nat × Nat))
    (hm : env.mallocaOk = true) (h1 : countLength w cl 0 0 = some 0)
    (h2 : commandLineWrites w cl = some log) (hne : log ≠ []) :
    create_launch w env cl si p = ⟨Outcome.undefined, p, [Event.malloca 0 true]⟩ := by
  have hblock : freshBlock env.heap 0 = [] := rfl
  simp only [create_launch, h1, h2, hm, hblock, applyWrites_empty_block log hne]
  rfl

/-- In `goodEnv` every call before the allocation succeeds: the run is the
three pipe blocks followed by the launch stage. -/
theorem process_create_goodEnv (w : Nat) (cl : List (List Nat)) (p : process_s) :
    process_create w goodEnv cl p =
      (create_launch w goodEnv cl ⟨256, 11, 22, 32⟩ ⟨1001, 1002, 1003, p.hProcess⟩).after
        [Event.CreatePipe 1 (some (11, 12)), Event.SetHandleInformation 12 1 0 true,
         Event.open_osfhandle 12 0 3, Event.fdopen 3 Mode.wb 1001,
         Event.store Field.stdin_file 1001,
         Event.CreatePipe 1 (some (21, 22)), Event.SetHandleInformation 21 1 0 true,
         Event.open_osfhandle 21 0 4, Event.fdopen 4 Mode.rb 1002,
         Event.store Field.stdout_file 1002,
         Event.CreatePipe 1 (some (31, 32)), Event.SetHandleInformation 31 1 0 true,
         Event.open_osfhandle 31 0 5, Event.fdopen 5 Mode.rb 1003,
         Event.store Field.stderr_file 1003] := by
  simp [process_create, create_stdout, create_stderr, goodEnv, CreateRun.after,
    startFUseStdHandles, handleFlagInherit]

/-! ## Lemmas on the stages of `process_create` -/

theorem AbortsCleanly_after (h : HANDLE) (evs : List Event) (r : CreateRun)
    (hq : Quiet evs) (hr : AbortsCleanly h r) : AbortsCleanly h (r.after evs) := by
  intro e he ha
  rw [after_trace, List.mem_append] at he
  rcases he with he | he
  · rw [(hq e he).1] at ha; cases ha
  · obtain ⟨h1, h2, h3, h4⟩ := hr e he ha
    refine ⟨h1, ?_, h3, ?_⟩
    · rw [after_trace, List.getLast?_append, h2]; rfl
    · intro e1 he1
      rw [after_trace, List.mem_append] at he1
      rcases he1 with he1 | he1
      · exact ⟨(hq e1 he1).2.1, (hq e1 he1).2.2⟩
      · exact h4 e1 he1

theorem LaunchesWith_after (buf : Option (List Nat)) (evs : List Event) (r : CreateRun)
    (hq : Quiet evs) (hr : LaunchesWith buf r) : LaunchesWith buf (r.after evs) := by
  intro b inh si res he
  rw [after_trace, List.mem_append] at he
  rcases he with he | he
  · have h1 := (hq _ he).1
    have h2 := (hq _ he).2.1
    cases res <;> simp [Event.isAbort, Event.isLaunch] at h1 h2
  · exact hr b inh si res he

theorem create_launch_aborts (w : Nat) (env : CreateEnv) (cl : List (List Nat))
    (si : STARTUPINFO) (p : process_s) :
    AbortsCleanly p.hProcess (create_launch w env cl si p) := by
  unfold create_launch
  split
  · simp [AbortsCleanly]
  · split
    · simp [AbortsCleanly, Event.isAbort, Event.isLaunch, Event.isStoreHProcess]
    · split
      · simp [AbortsCleanly, Event.isAbort]
      · split
        · simp [AbortsCleanly, Event.isAbort]
        · split
          · simp [AbortsCleanly, Event.isAbort, Event.isLaunch, Event.isStoreHProcess]
          · simp [AbortsCleanly, Event.isAbort]

theorem create_launch_mem (w : Nat) (env : CreateEnv) (cl : List (List Nat))
    (si : STARTUPINFO) (p : process_s) (b : List Nat) (inh : Bool) (si1 : STARTUPINFO)
    (res : Option (HANDLE × HANDLE))
    (hmem : Event.CreateProcess b inh si1 res ∈ (create_launch w env cl si p).trace) :
    (∃ len log, countLength w cl 0 0 = some len ∧ commandLineWrites w cl = some log ∧
      applyWrites log (freshBlock env.heap len) = some b) ∧
    inh = true ∧ si1 = si ∧ res = env.createProcess := by
  revert hmem
  unfold create_launch
  split
  · simp
  · rename_i len hlen
    split
    · simp
    · split
      · simp
      · rename_i log hlog
        split
        · simp
        · rename_i buf hbuf
          split
          · rename_i hcp
            intro hmem
            simp at hmem
            obtain ⟨rfl, rfl, rfl, rfl⟩ := hmem
            exact ⟨⟨len, log, hlen, hlog, hbuf⟩, rfl, rfl, hcp.symm⟩
          · rename_i hP hT hcp
            intro hmem
            simp at hmem
            obtain ⟨rfl, rfl, rfl, rfl⟩ := hmem
            exact ⟨⟨len, log, hlen, hlog, hbuf⟩, rfl, rfl, hcp.symm⟩

theorem create_launch_launches (w : Nat) (env : CreateEnv) (cl : List (List Nat))
    (si : STARTUPINFO) (p : process_s) :
    LaunchesWith (combineCommandLine w env.heap cl) (create_launch w env cl si p) := by
  intro b inh si1 res hmem
  obtain ⟨⟨len, log, h1, h2, h3⟩, _⟩ := create_launch_mem w env cl si p b inh si1 res hmem
  simp only [combineCommandLine, h1, h2, h3]

theorem CallsCreateProcess_after (buf : List Nat) (evs : List Event) (r : CreateRun)
    (hr : CallsCreateProcess buf r) : CallsCreateProcess buf (r.after evs) := by
  obtain ⟨si, res, h⟩ := hr
  exact ⟨si, res, by rw [after_trace]; exact List.mem_append_right evs h⟩

theorem create_launch_calls (w : Nat) (env : CreateEnv) (cl : List (List Nat))
    (si : STARTUPINFO) (p : process_s) (buf : List Nat) (hm : env.mallocaOk = true)
    (hb : combineCommandLine w env.heap cl = some buf) :
    CallsCreateProcess buf (create_launch w env cl si p) := by
  unfold combineCommandLine at hb
  unfold create_launch
  split at hb
  · cases hb
  · rename_i len hlen
    split at hb
    · cases hb
    · rename_i log hlog
      simp only [hlen, hlog, hb, hm]
      cases env.createProcess with
      | none => exact ⟨si, none, by simp⟩
      | some h => exact ⟨si, some h, by simp⟩

theorem create_stderr_aborts (w : Nat) (env : CreateEnv) (cl : List (List Nat))
    (si : STARTUPINFO) (p : process_s) :
    AbortsCleanly p.hProcess (create_stderr w env cl si p) := by
  unfold create_stderr
  split
  · simp [AbortsCleanly, Event.isAbort, Event.isLaunch, Event.isStoreHProcess]
  · split
    · simp [AbortsCleanly, Event.isAbort, Event.isLaunch, Event.isStoreHProcess]
    · dsimp only
      split
      · split
        · simp [AbortsCleanly, Event.isAbort]
        · exact AbortsCleanly_after _ _ _
            (by simp [Quiet, Event.isAbort, Event.isLaunch, Event.isStoreHProcess])
            (create_launch_aborts w env cl _ _)
      · exact AbortsCleanly_after _ _ _
          (by simp [Quiet, Event.isAbort, Event.isLaunch, Event.isStoreHProcess])
          (create_launch_aborts w env cl _ _)

theorem create_stdout_aborts (w : Nat) (env : CreateEnv) (cl : List (List Nat))
    (si : STARTUPINFO) (p : process_s) :
    AbortsCleanly p.hProcess (create_stdout w env cl si p) := by
  unfold create_stdout
  split
  · simp [AbortsCleanly, Event.isAbort, Event.isLaunch, Event.isStoreHProcess]
  · split
    · simp [AbortsCleanly, Event.isAbort, Event.isLaunch, Event.isStoreHProcess]
    · dsimp only
      split
      · split
        · simp [AbortsCleanly, Event.isAbort]
        · exact AbortsCleanly_after _ _ _
            (by simp [Quiet, Event.isAbort, Event.isLaunch, Event.isStoreHProcess])
            (create_stderr_aborts w env cl _ _)
      · exact AbortsCleanly_after _ _ _
          (by simp [Quiet, Event.isAbort, Event.isLaunch, Event.isStoreHProcess])
          (create_stderr_aborts w env cl _ _)

theorem process_create_aborts (w : Nat) (env : CreateEnv) (cl : List (List Nat))
    (p : process_s) : AbortsCleanly p.hProcess (process_create w env cl p) := by
  unfold process_create
  dsimp only
  split
  · simp [AbortsCleanly, Event.isAbort, Event.isLaunch, Event.isStoreHProcess]
  · split
    · simp [AbortsCleanly, Event.isAbort, Event.isLaunch, Event.isStoreHProcess]
    · split
      · split
        · simp [AbortsCleanly, Event.isAbort]
        · exact AbortsCleanly_after _ _ _
            (by simp [Quiet, Event.isAbort, Event.isLaunch, Event.isStoreHProcess])
            (create_stdout_aborts w env cl _ _)
      · exact AbortsCleanly_after _ _ _
          (by simp [Quiet, Event.isAbort, Event.isLaunch, Event.isStoreHProcess])
          (create_stdout_aborts w env cl _ _)

theorem create_stderr_launches (w : Nat) (env : CreateEnv) (cl : List (List Nat))
    (si : STARTUPINFO) (p : process_s) :
    LaunchesWith (combineCommandLine w env.heap cl) (create_stderr w env cl si p) := by
  unfold create_stderr
  split
  · simp [LaunchesWith]
  · split
    · simp [LaunchesWith]
    · dsimp only
      split
      · split
        · simp [LaunchesWith]
        · exact LaunchesWith_after _ _ _
            (by simp [Quiet, Event.isAbort, Event.isLaunch, Event.isStoreHProcess])
            (create_launch_launches w env cl _ _)
      · exact LaunchesWith_after _ _ _
          (by simp [Quiet, Event.isAbort, Event.isLaunch, Event.isStoreHProcess])
          (create_launch_launches w env cl _ _)

theorem create_stdout_launches (w : Nat) (env : CreateEnv) (cl : List (List Nat))
    (si : STARTUPINFO) (p : process_s) :
    LaunchesWith (combineCommandLine w env.heap cl) (create_stdout w env cl si p) := by
  unfold create_stdout
  split
  · simp [LaunchesWith]
  · split
    · simp [LaunchesWith]
    · dsimp only
      split
      · split
        · simp [LaunchesWith]
        · exact LaunchesWith_after _ _ _
            (by simp [Quiet, Event.isAbort, Event.isLaunch, Event.isStoreHProcess])
            (create_stderr_launches w env cl _ _)
      · exact LaunchesWith_after _ _ _
          (by simp [Quiet, Event.isAbort, Event.isLaunch, Event.isStoreHProcess])
          (create_stderr_launches w env cl _ _)

theorem process_create_launches (w : Nat) (env : CreateEnv) (cl : List (List Nat))
    (p : process_s) :
    LaunchesWith (combineCommandLine w env.heap cl) (process_create w env cl p) := by
  unfold process_create
  dsimp only
  split
  · simp [LaunchesWith]
  · split
    · simp [LaunchesWith]
    · split
      · split
        · simp [LaunchesWith]
        · exact LaunchesWith_after _ _ _
            (by simp [Quiet, Event.isAbort, Event.isLaunch, Event.isStoreHProcess])
            (create_stdout_launches w env cl _ _)
      · exact LaunchesWith_after _ _ _
          (by simp [Quiet, Event.isAbort, Event.isLaunch, Event.isStoreHProcess])
          (create_stdout_launches w env cl _ _)

theorem create_stderr_calls (w : Nat) (env : CreateEnv) (cl : List (List Nat))
    (si : STARTUPINFO) (p : process_s) (buf : List Nat)
    (h1 : env.pipe3 ≠ none) (h2 : env.shi3 = true) (h3 : env.osf3 ≠ -1 → env.fdopen3 ≠ 0)
    (hm : env.mallocaOk = true) (hb : combineCommandLine w env.heap cl = some buf) :
    CallsCreateProcess buf (create_stderr w env cl si p) := by
  unfold create_stderr
  split
  · rename_i h; exact absurd h h1
  · simp only [h2, Bool.true_eq_false, if_false]
    split
    · rename_i hfd
      rw [if_neg (h3 hfd)]
      exact CallsCreateProcess_after _ _ _ (create_launch_calls w env cl _ _ buf hm hb)
    · exact CallsCreateProcess_after _ _ _ (create_launch_calls w env cl _ _ buf hm hb)

theorem create_stdout_calls (w : Nat) (env : CreateEnv) (cl : List (List Nat))
    (si : STARTUPINFO) (p : process_s) (buf : List Nat)
    (h1 : env.pipe2 ≠ none) (h2 : env.shi2 = true) (h3 : env.osf2 ≠ -1 → env.fdopen2 ≠ 0)
    (h4 : env.pipe3 ≠ none) (h5 : env.shi3 = true) (h6 : env.osf3 ≠ -1 → env.fdopen3 ≠ 0)
    (hm : env.mallocaOk = true) (hb : combineCommandLine w env.heap cl = some buf) :
    CallsCreateProcess buf (create_stdout w env cl si p) := by
  unfold create_stdout
  split
  · rename_i h; exact absurd h h1
  · simp only [h2, Bool.true_eq_false, if_false]
    split
    · rename_i hfd
      rw [if_neg (h3 hfd)]
      exact CallsCreateProcess_after _ _ _ (create_stderr_calls w env cl _ _ buf h4 h5 h6 hm hb)
    · exact CallsCreateProcess_after _ _ _ (create_stderr_calls w env cl _ _ buf h4 h5 h6 hm hb)

theorem process_create_calls (w : Nat) (env : CreateEnv) (cl : List (List Nat))
    (p : process_s) (buf : List Nat) (hr : env.reachesLaunch)
    (hb : combineCommandLine w env.heap cl = some buf) :
    CallsCreateProcess buf (process_create w env cl p) := by
  obtain ⟨h1, h2, h3, h4, h5, h6, h7, h8, h9, hm⟩ := hr
  unfold process_create
  dsimp only
  split
  · rename_i h; exact absurd h h1
  · simp only [h2, Bool.true_eq_false, if_false]
    split
    · rename_i hfd
      rw [if_neg (h3 hfd)]
      exact CallsCreateProcess_after _ _ _
        (create_stdout_calls w env cl _ _ buf h4 h5 h6 h7 h8 h9 hm hb)
    · exact CallsCreateProcess_after _ _ _
        (create_stdout_calls w env cl _ _ buf h4 h5 h6 h7 h8 h9 hm hb)

/-! ## The shape of a successful run -/

theorem create_launch_success (w : Nat) (env : CreateEnv) (cl : List (List Nat))
    (si : STARTUPINFO) (p : process_s)
    (h : (create_launch w env cl si p).result = Outcome.returned 0) :
    ∃ (hP hT : HANDLE) (len : Nat) (buf : List Nat),
      env.createProcess = some (hP, hT) ∧ countLength w cl 0 0 = some len ∧
      combineCommandLine w env.heap cl = some buf ∧
      (create_launch w env cl si p).out = { p with hProcess := hP } ∧
      (create_launch w env cl si p).trace =
        [Event.malloca len true, Event.CreateProcess buf true si (some (hP, hT)),
         Event.store Field.hProcess hP, Event.CloseHandle hT] := by
  revert h
  unfold create_launch combineCommandLine
  cases hlen : countLength w cl 0 0 with
  | none => simp
  | some len =>
    cases hm : env.mallocaOk with
    | false => simp
    | true =>
      cases hlog : commandLineWrites w cl with
      | none => simp
      | some log =>
        cases hbuf : applyWrites log (freshBlock env.heap len) with
        | none => simp [hbuf]
        | some buf =>
          cases hcp : env.createProcess with
          | none => simp [hbuf, hcp]
          | some hh =>
            obtain ⟨hP, hT⟩ := hh
            intro _
            exact ⟨hP, hT, len, buf, rfl, rfl, by simp [hbuf], by simp [hbuf, hcp],
              by simp [hbuf, hcp]⟩

theorem create_stderr_success (w : Nat) (env : CreateEnv) (cl : List (List Nat))
    (si : STARTUPINFO) (p : process_s)
    (h : (create_stderr w env cl si p).result = Outcome.returned 0) :
    ∃ (rd wr : HANDLE),
      env.pipe3 = some (rd, wr) ∧ (env.osf3 ≠ -1 → env.fdopen3 ≠ 0) ∧
      create_stderr w env cl si p =
        (create_launch w env cl { si with hStdError := wr }
          (if env.osf3 ≠ -1 then { p with stderr_file := env.fdopen3 } else p)).after
          (pipeEffects rd wr rd env.osf3 Mode.rb Field.stderr_file env.fdopen3) := by
  revert h
  unfold create_stderr pipeEffects
  cases hp : env.pipe3 with
  | none => simp
  | some hh =>
    obtain ⟨rd, wr⟩ := hh
    cases hs : env.shi3 with
    | false => simp
    | true =>
      by_cases hfd : env.osf3 = -1
      · simp [hfd]
        intro _
        exact ⟨rd, wr, ⟨rfl, rfl⟩, rfl⟩
      · by_cases hf : env.fdopen3 = 0
        · simp [hfd, hf]
        · simp [hfd, hf]
          intro _
          exact ⟨rd, wr, ⟨rfl, rfl⟩, rfl⟩

theorem create_stdout_success (w : Nat) (env : CreateEnv) (cl : List (List Nat))
    (si : STARTUPINFO) (p : process_s)
    (h : (create_stdout w env cl si p).result = Outcome.returned 0) :
    ∃ (rd wr : HANDLE),
      env.pipe2 = some (rd, wr) ∧ (env.osf2 ≠ -1 → env.fdopen2 ≠ 0) ∧
      create_stdout w env cl si p =
        (create_stderr w env cl { si with hStdOutput := wr }
          (if env.osf2 ≠ -1 then { p with stdout_file := env.fdopen2 } else p)).after
          (pipeEffects rd wr rd env.osf2 Mode.rb Field.stdout_file env.fdopen2) := by
  revert h
  unfold create_stdout pipeEffects
  cases hp : env.pipe2 with
  | none => simp
  | some hh =>
    obtain ⟨rd, wr⟩ := hh
    cases hs : env.shi2 with
    | false => simp
    | true =>
      by_cases hfd : env.osf2 = -1
      · simp [hfd]
        intro _
        exact ⟨rd, wr, ⟨rfl, rfl⟩, rfl⟩
      · by_cases hf : env.fdopen2 = 0
        · simp [hfd, hf]
        · simp [hfd, hf]
          intro _
          exact ⟨rd, wr, ⟨rfl, rfl⟩, rfl⟩

theorem process_create_success (w : Nat) (env : CreateEnv) (cl : List (List Nat))
    (p : process_s) (h : (process_create w env cl p).result = Outcome.returned 0) :
    ∃ (rd wr : HANDLE),
      env.pipe1 = some (rd, wr) ∧ (env.osf1 ≠ -1 → env.fdopen1 ≠ 0) ∧
      process_create w env cl p =
        (create_stdout w env cl ⟨startFUseStdHandles, rd, 0, 0⟩
          (if env.osf1 ≠ -1 then { p with stdin_file := env.fdopen1 } else p)).after
          (pipeEffects rd wr wr env.osf1 Mode.wb Field.stdin_file env.fdopen1) := by
  revert h
  unfold process_create pipeEffects
  cases hp : env.pipe1 with
  | none => simp
  | some hh =>
    obtain ⟨rd, wr⟩ := hh
    cases hs : env.shi1 with
    | false => simp
    | true =>
      by_cases hfd : env.osf1 = -1
      · simp [hfd]
        intro _
        exact ⟨rd, wr, ⟨rfl, rfl⟩, rfl⟩
      · by_cases hf : env.fdopen1 = 0
        · simp [hfd, hf]
        · simp [hfd, hf]
          intro _
          exact ⟨rd, wr, ⟨rfl, rfl⟩, rfl⟩

/-- The shape of every run of `process_create` that returns `0`: the three
pipe blocks in order, then the allocation and the launch.  The child gets the
read end of the first pipe and the write ends of the other two; the inherit
flag is cleared on the write end of the first pipe and on the read ends of the
other two, and on no other handle; a stream, when one is opened, is opened on
that same end, for writing on the first pipe and for reading on the others. -/
theorem process_create_success_shape (w : Nat) (env : CreateEnv) (cl : List (List Nat))
    (p : process_s) (h : (process_create w env cl p).result = Outcome.returned 0) :
    ∃ (rd1 wr1 rd2 wr2 rd3 wr3 hP hT : HANDLE) (len : Nat) (buf : List Nat),
      env.pipe1 = some (rd1, wr1) ∧ env.pipe2 = some (rd2, wr2) ∧ env.pipe3 = some (rd3, wr3) ∧
      env.createProcess = some (hP, hT) ∧
      combineCommandLine w env.heap cl = some buf ∧
      (process_create w env cl p).trace =
        pipeEffects rd1 wr1 wr1 env.osf1 Mode.wb Field.stdin_file env.fdopen1 ++
        (pipeEffects rd2 wr2 rd2 env.osf2 Mode.rb Field.stdout_file env.fdopen2 ++
        (pipeEffects rd3 wr3 rd3 env.osf3 Mode.rb Field.stderr_file env.fdopen3 ++
          [Event.malloca len true,
           Event.CreateProcess buf true ⟨startFUseStdHandles, rd1, wr2, wr3⟩ (some (hP, hT)),
           Event.store Field.hProcess hP, Event.CloseHandle hT])) ∧
      (process_create w env cl p).out =
        ⟨if env.osf1 ≠ -1 then env.fdopen1 else p.stdin_file,
         if env.osf2 ≠ -1 then env.fdopen2 else p.stdout_file,
         if env.osf3 ≠ -1 then env.fdopen3 else p.stderr_file, hP⟩ ∧
      (env.osf1 ≠ -1 → env.fdopen1 ≠ 0) ∧ (env.osf2 ≠ -1 → env.fdopen2 ≠ 0) ∧
      (env.osf3 ≠ -1 → env.fdopen3 ≠ 0) := by
  obtain ⟨rd1, wr1, hp1, hf1, e1⟩ := process_create_success w env cl p h
  rw [e1, after_result] at h
  obtain ⟨rd2, wr2, hp2, hf2, e2⟩ := create_stdout_success w env cl _ _ h
  rw [e2, after_result] at h
  obtain ⟨rd3, wr3, hp3, hf3, e3⟩ := create_stderr_success w env cl _ _ h
  rw [e3, after_result] at h
  obtain ⟨hP, hT, len, buf, hcp, _, hbuf, hout, htr⟩ := create_launch_success w env cl _ _ h
  refine ⟨rd1, wr1, rd2, wr2, rd3, wr3, hP, hT, len, buf, hp1, hp2, hp3, hcp, hbuf, ?_, ?_,
    hf1, hf2, hf3⟩
  · rw [e1, after_trace, e2, after_trace, e3, after_trace, htr]
  · rw [e1, after_out, e2, after_out, e3, after_out, hout]
    by_cases c1 : env.osf1 = -1 <;> by_cases c2 : env.osf2 = -1 <;>
      by_cases c3 : env.osf3 = -1 <;> simp [c1, c2, c3]

/-! ## The claims -/

/-- C1: for every non-empty command line (with `int` counters in range and a
joined size that fits `size_t`, which is automatic from 62 bits on), the block
handed to `CreateProcess` is exactly the strings joined with one space between
consecutive ones, followed by one NUL: lines 203-233 produce it, every call of
`CreateProcess` in a run of `process_create` receives it, and the call is made
whenever the calls before it succeed.  The strings are unmodified, and a
one-element command line is joined to its only string. -/
theorem process_create_command_line (w : Nat) (env : CreateEnv) (cl : List (List Nat))
    (p : process_s) (hne : cl ≠ []) (hn : cl.length ≤ INT_MAX)
    (hs : ∀ s ∈ cl, strlen s ≤ INT_MAX) (hfit : 62 ≤ w ∨ joinedSize cl < 2 ^ w) :
    combineCommandLine w env.heap cl = some (List.intercalate [SPACE] (cl.map cstr) ++ [0]) ∧
    (∀ (b : List Nat) (inh : Bool) (si : STARTUPINFO) (res : Option (HANDLE × HANDLE)),
      Event.CreateProcess b inh si res ∈ (process_create w env cl p).trace →
        b = List.intercalate [SPACE] (cl.map cstr) ++ [0]) ∧
    (env.reachesLaunch →
      ∃ (si : STARTUPINFO) (res : Option (HANDLE × HANDLE)),
        Event.CreateProcess (List.intercalate [SPACE] (cl.map cstr) ++ [0]) true si res ∈
          (process_create w env cl p).trace) ∧
    (∀ s ∈ cl, (∀ c ∈ s, c ≠ 0) → cstr s = s) ∧
    (∀ s : List Nat, cl = [s] → List.intercalate [SPACE] (cl.map cstr) = cstr s) := by
  have hfit1 : joinedSize cl < 2 ^ w := by
    rcases hfit with h | h
    · exact joinedSize_lt_of_int w cl h hn hs
    · exact h
  have hc := (combine_spec w env.heap cl hne hn hs hfit1).2.2.1
  rw [spaceJoined] at hc
  refine ⟨hc, ?_, ?_, ?_, ?_⟩
  · intro b inh si res hmem
    have h := process_create_launches w env cl p b inh si res hmem
    rw [hc] at h
    exact (Option.some.inj h).symm
  · intro hr
    exact process_create_calls w env cl p _ hr hc
  · intro s _ h0
    exact cstr_eq_self s h0
  · intro s hcl
    subst hcl
    simp [List.intercalate]

/-- The command line `echo hi` in a run where every call succeeds: the block is
`echo hi` and one NUL, and `CreateProcess` receives it. -/
theorem process_create_command_line_witness :
    combineCommandLine 64 goodEnv.heap [[101, 99, 104, 111], [104, 105]] =
      some [101, 99, 104, 111, 32, 104, 105, 0] ∧
    Event.CreateProcess [101, 99, 104, 111, 32, 104, 105, 0] true ⟨256, 11, 22, 32⟩
        (some (500, 501)) ∈
      (process_create 64 goodEnv [[101, 99, 104, 111], [104, 105]] blank).trace :=
  ⟨(process_create_command_line 64 goodEnv [[101, 99, 104, 111], [104, 105]] blank
      (by decide) (by decide) (by decide) (Or.inl (by decide))).1,
    by decide⟩

/-- When the joined size fits `size_t` (automatic from 62 bits on, with `int`
counters in range), the two passes agree on a non-empty command line: the
length found by the first pass is the sum over the elements of length + 1 and
equals the number of stores of the second pass, terminator included; every
index stored to is below that length, the last store is the NUL at the last
index, and no store falls outside a block of that length. -/
theorem first_pass_length_eq_second_pass_writes (w : Nat) (cl : List (List Nat))
    (hne : cl ≠ []) (hn : cl.length ≤ INT_MAX) (hs : ∀ s ∈ cl, strlen s ≤ INT_MAX)
    (hfit : 62 ≤ w ∨ joinedSize cl < 2 ^ w) :
    ∃ (len : Nat) (log : List (Nat × Nat)),
      countLength w cl 0 0 = some len ∧ commandLineWrites w cl = some log ∧
      len = joinedSize cl ∧ log.length = len ∧ (∀ q ∈ log, q.1 < len) ∧
      log.getLast? = some (len - 1, 0) ∧
      ∀ heap : Nat → Nat, (applyWrites log (freshBlock heap len)).isSome = true := by
  have hfit1 : joinedSize cl < 2 ^ w := by
    rcases hfit with h | h
    · exact joinedSize_lt_of_int w cl h hn hs
    · exact h
  have hall := fun heap => combine_spec w heap cl hne hn hs hfit1
  obtain ⟨h1, h2, _, h4⟩ := hall (fun _ => 0)
  refine ⟨joinedSize cl, indexed 0 (spaceJoined cl ++ [0]), h1, h2, rfl, ?_, ?_, ?_, ?_⟩
  · rw [indexed_length, h4]
  · intro q hq
    have := indexed_mem _ 0 q hq
    omega
  · have hlast : indexed (0 + (spaceJoined cl).length) [0] = [(joinedSize cl - 1, 0)] := by
      simp only [List.length_append, List.length_singleton] at h4
      simp only [indexed, ← h4, Nat.zero_add, Nat.add_sub_cancel]
    rw [indexed_append, hlast, List.getLast?_concat]
  · intro heap
    have h3 := (hall heap).2.2.1
    simp only [combineCommandLine, h1, h2] at h3
    rw [h3]
    rfl

/-- The two passes on the command line `echo hi`, with a 64-bit `size_t`. -/
theorem first_pass_length_eq_second_pass_writes_witness :
    ∃ (len : Nat) (log : List (Nat × Nat)),
      countLength 64 [[101, 99, 104, 111], [104, 105]] 0 0 = some len ∧
      commandLineWrites 64 [[101, 99, 104, 111], [104, 105]] = some log ∧
      len = joinedSize [[101, 99, 104, 111], [104, 105]] ∧ log.length = len ∧
      (∀ q ∈ log, q.1 < len) ∧ log.getLast? = some (len - 1, 0) ∧
      ∀ heap : Nat → Nat, (applyWrites log (freshBlock heap len)).isSome = true :=
  first_pass_length_eq_second_pass_writes 64 [[101, 99, 104, 111], [104, 105]]
    (by decide) (by decide) (by decide) (Or.inl (by decide))

/-- C10: on a 32-bit `size_t` the two passes disagree on `wideCommandLine`, a
non-empty command line within reach of the `int` counters.  Its joined size is
`2 ^ 32`; the first pass wraps and finds the length `0`, so `_malloca(0)` is
asked for; the second pass makes `2 ^ 32` stores; and no store fits the block:
lines 203-233 have no defined result, and the run of `process_create` ends
without defined behaviour right after the allocation of `0` bytes. -/
theorem first_pass_wraps_on_32_bit_size :
    wideCommandLine ≠ [] ∧ wideCommandLine.length ≤ INT_MAX ∧
    (∀ s ∈ wideCommandLine, strlen s ≤ INT_MAX) ∧
    joinedSize wideCommandLine = 2 ^ 32 ∧
    countLength 32 wideCommandLine 0 0 = some 0 ∧
    (∃ log : List (Nat × Nat),
      commandLineWrites 32 wideCommandLine = some log ∧ log.length = 2 ^ 32) ∧
    (∀ heap : Nat → Nat, combineCommandLine 32 heap wideCommandLine = none) ∧
    (process_create 32 goodEnv wideCommandLine blank).result = Outcome.undefined ∧
    (process_create 32 goodEnv wideCommandLine blank).trace.getLast? =
      some (Event.malloca 0 true) := by
  have hlen : wideCommandLine.length = 65536 := by
    rw [wideCommandLine, List.length_replicate]
  have hstr : ∀ s ∈ wideCommandLine, strlen s = 65535 := by
    intro s hs
    rw [wideCommandLine] at hs
    rw [List.eq_of_mem_replicate hs]
    exact strlen_replicate 65535 97 (by decide)
  have hs : ∀ s ∈ wideCommandLine, strlen s ≤ INT_MAX := by
    intro s h
    rw [hstr s h]
    decide
  have hn : wideCommandLine.length ≤ INT_MAX := by
    rw [hlen]
    decide
  have hne : wideCommandLine ≠ [] := by
    intro h
    rw [h] at hlen
    cases hlen
  have hsize : joinedSize wideCommandLine = 2 ^ 32 := by
    rw [wideCommandLine, joinedSize_replicate, strlen_replicate 65535 97 (by decide)]
    decide
  have hfirst : countLength 32 wideCommandLine 0 0 = some 0 := by
    rw [countLength_mod 32 wideCommandLine 0 0 (by decide) (by omega) hs, hsize]
    decide
  obtain ⟨len2, log2, h2, hl2⟩ := copyArgs_length 32 wideCommandLine 0 0 (by omega) hs
  have hjoin : (joinFrom 0 wideCommandLine).length + 1 = 2 ^ 32 := by
    obtain ⟨s, rest, hcl⟩ := List.exists_cons_of_ne_nil hne
    rw [← hsize, hcl]
    exact joinFrom_zero_length s rest
  have hwrites := commandLineWrites_of_copyArgs 32 wideCommandLine len2 log2 h2
  have hlog : log2 ++ [(len2, 0)] ≠ [] := by simp
  have hrun := create_launch_zero_block 32 goodEnv wideCommandLine ⟨256, 11, 22, 32⟩
    ⟨1001, 1002, 1003, blank.hProcess⟩ (log2 ++ [(len2, 0)]) rfl hfirst hwrites hlog
  refine ⟨hne, hn, hs, hsize, hfirst, ⟨log2 ++ [(len2, 0)], hwrites, ?_⟩, ?_, ?_, ?_⟩
  · rw [List.length_append, List.length_singleton, hl2, hjoin]
  · intro heap
    exact combineCommandLine_zero_block 32 heap wideCommandLine _ hfirst hwrites hlog
  · rw [process_create_goodEnv, after_result, hrun]
  · rw [process_create_goodEnv, after_trace, hrun]
    rfl

/-- C5: when a call of `CreatePipe`, `SetHandleInformation`, `_malloca` or
`CreateProcess` fails in a run of `process_create`, the run returns `-1`, not
`0`; the failed call is the last effect of the run, so no later step is
performed; no child is launched; and `hProcess` of `*out_process` is never
stored to and keeps the value it had on entry. -/
theorem process_create_abort (w : Nat) (env : CreateEnv) (cl : List (List Nat))
    (p : process_s) (e : Event) (he : e ∈ (process_create w env cl p).trace)
    (ha : e.isAbort = true) :
    (process_create w env cl p).result = Outcome.returned (-1) ∧
    (process_create w env cl p).result ≠ Outcome.returned 0 ∧
    (process_create w env cl p).trace.getLast? = some e ∧
    (∀ e1 ∈ (process_create w env cl p).trace,
      e1.isLaunch = false ∧ e1.isStoreHProcess = false) ∧
    (process_create w env cl p).out.hProcess = p.hProcess := by
  obtain ⟨h1, h2, h3, h4⟩ := process_create_aborts w env cl p e he ha
  refine ⟨h1, ?_, h2, h4, h3⟩
  rw [h1]
  decide

/-- A run in which `CreateProcess` fails: `-1` is returned and `hProcess`
keeps the value `500` it held on entry. -/
theorem process_create_abort_witness :
    (process_create 64 { goodEnv with createProcess := none } [[120, 121, 122]] sampleProcess).result
      = Outcome.returned (-1) ∧
    (process_create 64 { goodEnv with createProcess := none } [[120, 121, 122]] sampleProcess).out.hProcess
      = 500 :=
  have h := process_create_abort 64 { goodEnv with createProcess := none } [[120, 121, 122]]
    sampleProcess (Event.CreateProcess [120, 121, 122, 0] true ⟨256, 11, 22, 32⟩ none)
    (by decide) (by decide)
  ⟨h.1, h.2.2.2.2⟩

/-- C2: a run of `process_create` in which `_open_osfhandle` returns `-1`
for the standard input pipe and every other call succeeds.  The run returns
`0`, yet it calls `_fdopen` twice only and never stores into `stdin_file`,
which keeps the `NULL` it held on entry. -/
theorem process_create_returns_zero_without_stdin :
    (process_create 64 { goodEnv with osf1 := -1 } [[97]] blank).result = Outcome.returned 0 ∧
    (process_create 64 { goodEnv with osf1 := -1 } [[97]] blank).out = ⟨0, 1002, 1003, 500⟩ ∧
    (process_create 64 { goodEnv with osf1 := -1 } [[97]] blank).trace =
      [Event.CreatePipe 1 (some (11, 12)), Event.SetHandleInformation 12 1 0 true,
       Event.open_osfhandle 12 0 (-1),
       Event.CreatePipe 1 (some (21, 22)), Event.SetHandleInformation 21 1 0 true,
       Event.open_osfhandle 21 0 4, Event.fdopen 4 Mode.rb 1002,
       Event.store Field.stdout_file 1002,
       Event.CreatePipe 1 (some (31, 32)), Event.SetHandleInformation 31 1 0 true,
       Event.open_osfhandle 31 0 5, Event.fdopen 5 Mode.rb 1003,
       Event.store Field.stderr_file 1003,
       Event.malloca 2 true,
       Event.CreateProcess [97, 0] true ⟨256, 11, 22, 32⟩ (some (500, 501)),
       Event.store Field.hProcess 500, Event.CloseHandle 501] := by
  decide

/-- C3, as stated, fails: with no exit-code slot and a wait that succeeds,
`process_join` returns `0` although no exit-status query was made, let alone
succeeded; and with no slot and a wait that fails it returns `0` as well. -/
theorem process_join_zero_without_query :
    (process_join ⟨WAIT_OBJECT_0, some 0⟩ sampleProcess none).ret = 0 ∧
    (process_join ⟨WAIT_OBJECT_0, some 0⟩ sampleProcess none).trace =
      [Event.fclose 1001, Event.WaitForSingleObject 500 0xFFFFFFFF 0] ∧
    (process_join ⟨WAIT_FAILED, none⟩ sampleProcess none).ret = 0 ∧
    (process_join ⟨WAIT_FAILED, none⟩ sampleProcess none).trace =
      [Event.fclose 1001, Event.WaitForSingleObject 500 0xFFFFFFFF 0xFFFFFFFF] := by
  decide

/-- C3, amended: with an exit-code slot, `process_join` returns a non-zero
value whenever `GetExitCodeProcess` fails, and returns `0` only when that
query was made and succeeded; with no slot it makes no exit-status query, and
returns `0` when the wait succeeded. -/
theorem process_join_reports_query_failure (env : JoinEnv) (process : process_s) :
    (∀ old : Int, env.exitCode = none →
      (process_join env process (some old)).ret ≠ 0 ∧
      Event.GetExitCodeProcess process.hProcess none ∈
        (process_join env process (some old)).trace) ∧
    (∀ old : Int, (process_join env process (some old)).ret = 0 →
      ∃ code : Nat, env.exitCode = some code ∧
        Event.GetExitCodeProcess process.hProcess (some code) ∈
          (process_join env process (some old)).trace) ∧
    (∀ (h : HANDLE) (res : Option Nat),
      Event.GetExitCodeProcess h res ∉ (process_join env process none).trace) ∧
    (env.waitResult = WAIT_OBJECT_0 → (process_join env process none).ret = 0) := by
  refine ⟨?_, ?_, ?_, ?_⟩
  · intro old h
    simp [process_join, h]
  · intro old h
    cases hq : env.exitCode with
    | none => simp [process_join, hq] at h
    | some code => exact ⟨code, rfl, by simp [process_join, hq]⟩
  · intro h res
    simp [process_join]
  · intro _
    rfl

/-- A failed exit-status query is reported when a slot is supplied; with no
slot and a successful wait `0` is returned. -/
theorem process_join_reports_query_failure_witness :
    (process_join ⟨WAIT_OBJECT_0, none⟩ sampleProcess (some 7)).ret ≠ 0 ∧
    (process_join ⟨WAIT_OBJECT_0, none⟩ sampleProcess none).ret = 0 :=
  ⟨((process_join_reports_query_failure ⟨WAIT_OBJECT_0, none⟩ sampleProcess).1 7 rfl).1,
    (process_join_reports_query_failure ⟨WAIT_OBJECT_0, none⟩ sampleProcess).2.2.2 rfl⟩

/-- C4: the lifecycle create, join, destroy on a run of `process_create` in
which every call succeeds.  The effects of `process_join` followed by those of
`process_destroy` close the standard input stream twice: `fclose` is called on
it by `process_join` and again by `process_destroy`. -/
theorem join_then_destroy_closes_stdin_twice :
    (process_create 64 goodEnv [[97]] blank).result = Outcome.returned 0 ∧
    (process_create 64 goodEnv [[97]] blank).out = sampleProcess ∧
    (process_join ⟨WAIT_OBJECT_0, some 0⟩ sampleProcess (some 0)).trace ++
        (process_destroy sampleProcess).trace =
      [Event.fclose 1001, Event.WaitForSingleObject 500 0xFFFFFFFF 0,
       Event.GetExitCodeProcess 500 (some 0),
       Event.fclose 1001, Event.fclose 1002, Event.fclose 1003, Event.CloseHandle 500] ∧
    List.count (Event.fclose sampleProcess.stdin_file)
      ((process_join ⟨WAIT_OBJECT_0, some 0⟩ sampleProcess (some 0)).trace ++
        (process_destroy sampleProcess).trace) = 2 := by
  decide

/-- C6: when the wait and the exit-status query succeed and a slot is
supplied, `process_join` returns `0` and the slot holds the exit code `N`, for
every `N` an `int` can hold (so for every `N` in 0..255); the value returned
is the same for every other exit code `M`, in range or not. -/
theorem process_join_exit_code (process : process_s) (old : Int) (N : Nat)
    (hN : N < 2 ^ 31) :
    (process_join ⟨WAIT_OBJECT_0, some N⟩ process (some old)).ret = 0 ∧
    (process_join ⟨WAIT_OBJECT_0, some N⟩ process (some old)).slot = some (N : Int) ∧
    ∀ M : Nat, (process_join ⟨WAIT_OBJECT_0, some M⟩ process (some old)).ret =
      (process_join ⟨WAIT_OBJECT_0, some N⟩ process (some old)).ret := by
  have hmod : N % 2 ^ 32 = N := Nat.mod_eq_of_lt (by omega)
  refine ⟨rfl, ?_, fun _ => rfl⟩
  simp only [process_join, dwordAsInt, hmod, hN, if_true]

/-- The exit code `255` reaches the slot and `0` is returned. -/
theorem process_join_exit_code_witness :
    (process_join ⟨WAIT_OBJECT_0, some 255⟩ sampleProcess (some 0)).ret = 0 ∧
    (process_join ⟨WAIT_OBJECT_0, some 255⟩ sampleProcess (some 0)).slot = some 255 :=
  have h := process_join_exit_code sampleProcess 0 255 (by decide)
  ⟨h.1, h.2.1⟩

/-- C7: `process_destroy` on any handle, and so on one that was never joined:
it returns `0`; its effects are `fclose` on the three streams and
`CloseHandle` on the native handle, one call each and nothing else, so no
call waits for the child or terminates it; and on a handle whose three streams
are distinct each stream is closed exactly once, as is the native handle. -/
theorem process_destroy_closes_each_once (process : process_s) :
    (process_destroy process).ret = 0 ∧
    (process_destroy process).trace =
      [Event.fclose process.stdin_file, Event.fclose process.stdout_file,
       Event.fclose process.stderr_file, Event.CloseHandle process.hProcess] ∧
    (∀ e ∈ (process_destroy process).trace, e.isClose = true) ∧
    List.count (Event.CloseHandle process.hProcess) (process_destroy process).trace = 1 ∧
    (process.stdin_file ≠ process.stdout_file → process.stdin_file ≠ process.stderr_file →
      process.stdout_file ≠ process.stderr_file →
      List.count (Event.fclose process.stdin_file) (process_destroy process).trace = 1 ∧
      List.count (Event.fclose process.stdout_file) (process_destroy process).trace = 1 ∧
      List.count (Event.fclose process.stderr_file) (process_destroy process).trace = 1) := by
  refine ⟨rfl, rfl, ?_, ?_, ?_⟩
  · intro e he
    simp only [process_destroy, List.mem_cons, List.mem_singleton, List.not_mem_nil,
      or_false] at he
    rcases he with rfl | rfl | rfl | rfl <;> rfl
  · simp [process_destroy, List.count_cons]
  · intro h1 h2 h3
    simp [process_destroy, List.count_cons, h1, h2, h3, Ne.symm h1, Ne.symm h2, Ne.symm h3]

/-- The handle of a run of `process_create` in which every call succeeds:
`process_destroy` closes each of its three streams once. -/
theorem process_destroy_closes_each_once_witness :
    List.count (Event.fclose 1001)
      (process_destroy (process_create 64 goodEnv [[97]] blank).out).trace = 1 ∧
    List.count (Event.fclose 1002)
      (process_destroy (process_create 64 goodEnv [[97]] blank).out).trace = 1 ∧
    List.count (Event.fclose 1003)
      (process_destroy (process_create 64 goodEnv [[97]] blank).out).trace = 1 :=
  (process_destroy_closes_each_once (process_create 64 goodEnv [[97]] blank).out).2.2.2.2
    (by decide) (by decide) (by decide)

/-- C8: in every run of `process_join` the first effect is `fclose` on the
standard input stream and the second is `WaitForSingleObject` on the native
handle with the timeout `0xFFFFFFFF`; what follows is nothing, or one
`GetExitCodeProcess` on the native handle; and no effect after the first
closes a stream or a handle, so the standard output stream, the standard error
stream and the native handle are not closed. -/
theorem process_join_order (env : JoinEnv) (process : process_s) (slot : Option Int) :
    ∃ rest : List Event,
      (process_join env process slot).trace =
        Event.fclose process.stdin_file ::
          Event.WaitForSingleObject process.hProcess 0xFFFFFFFF env.waitResult :: rest ∧
      (rest = [] ∨ rest = [Event.GetExitCodeProcess process.hProcess env.exitCode]) ∧
      ∀ e ∈ (process_join env process slot).trace.tail, e.isClose = false := by
  cases slot with
  | none => exact ⟨[], rfl, Or.inl rfl, by simp [process_join, Event.isClose]⟩
  | some old =>
    cases hq : env.exitCode with
    | none =>
      exact ⟨[Event.GetExitCodeProcess process.hProcess none],
        by simp [process_join, hq, infinite], Or.inr rfl,
        by simp [process_join, hq, Event.isClose]⟩
    | some code =>
      exact ⟨[Event.GetExitCodeProcess process.hProcess (some code)],
        by simp [process_join, hq, infinite], Or.inr rfl,
        by simp [process_join, hq, Event.isClose]⟩

/-- C9: a run of `process_create` in which `_open_osfhandle` returns `-1`
for the standard output pipe and every other call succeeds.  The run returns
`0` and the child gets the write end `22` as standard output, yet no stream is
opened on the read end `21`: `stdout_file` is never stored to and keeps the
`NULL` it held on entry. -/
theorem process_create_returns_zero_without_stdout :
    (process_create 64 { goodEnv with osf2 := -1 } [[97]] blank).result = Outcome.returned 0 ∧
    (process_create 64 { goodEnv with osf2 := -1 } [[97]] blank).out = ⟨1001, 0, 1003, 500⟩ ∧
    (process_create 64 { goodEnv with osf2 := -1 } [[97]] blank).trace =
      [Event.CreatePipe 1 (some (11, 12)), Event.SetHandleInformation 12 1 0 true,
       Event.open_osfhandle 12 0 3, Event.fdopen 3 Mode.wb 1001,
       Event.store Field.stdin_file 1001,
       Event.CreatePipe 1 (some (21, 22)), Event.SetHandleInformation 21 1 0 true,
       Event.open_osfhandle 21 0 (-1),
       Event.CreatePipe 1 (some (31, 32)), Event.SetHandleInformation 31 1 0 true,
       Event.open_osfhandle 31 0 5, Event.fdopen 5 Mode.rb 1003,
       Event.store Field.stderr_file 1003,
       Event.malloca 2 true,
       Event.CreateProcess [97, 0] true ⟨256, 11, 22, 32⟩ (some (500, 501)),
       Event.store Field.hProcess 500, Event.CloseHandle 501] := by
  decide

end Process
